import Mathlib

/-!
Verification development for the thinpic image-compression core
(src/main/cpp/image_compressor.c and src/main/cpp/vips_smart_wrapper.c).

The C code is shallowly embedded: the pure decision logic (format
resolution, sizing policy, PNG level mapping, the target-size quality
descent, the best-of-formats fold) is translated into executable Lean
functions, and the effectful pipeline entry points are modelled as
functions over an oracle environment (VipsEnv) that abstracts the libvips
calls (decode, resize, colourspace copy, per-format encode-to-buffer).

C double arithmetic on the few policy computations is modelled with exact
rational / natural floor arithmetic; at the int ranges involved the C
expressions (int)(x * 1.2), (int)(x * 0.8) and
(int)((double)a * 6000 / b) agree with the rational floors used here,
because the relative error of the double computation is far below the
distance of the exact value to the nearest integer crossing.
-/

/-- Supported image formats, image_compressor.c lines 28-38. -/
inductive ImageFormat where
  | JPEG
  | PNG
  | WEBP
  | TIFF
  | HEIF
  | JP2K
  | JXL
  | GIF
  | AUTO
deriving DecidableEq

/-- Resampling kernels that the code selects between (VIPS_KERNEL_LANCZOS3
vs VIPS_KERNEL_LINEAR). -/
inductive Kernel where
  | lanczos3
  | linear
deriving DecidableEq

/-- Decoded image metadata (width, height, bands) as read by
vips_image_get_width / _height / _bands. -/
structure Image where
  width : Nat
  height : Nat
  bands : Nat
deriving DecidableEq

/-- CompressedImageResult, image_compressor.c lines 10-14.  The data
pointer is modelled as an Option: none is NULL.  A buffer is abstracted
to its byte length. -/
structure CompressedImageResult where
  data : Option Nat
  length : Nat
  success : Int
deriving DecidableEq

/-- ASCII lowercase step of detect_format_from_path (line 62):
chars in A..Z get 32 added, everything else is kept. -/
def toLowerChar (c : Char) : Char :=
  if 'A' ≤ c ∧ c ≤ 'Z' then Char.ofNat (c.toNat + 32) else c

/-- strrchr(path, dot): the suffix of the path after the LAST dot,
none when the path has no dot (lines 53-56). -/
def extAfterLastDot : List Char → Option (List Char)
  | [] => none
  | c :: cs =>
    match extAfterLastDot cs with
    | some e => some e
    | none => if c = '.' then some cs else none

/-- The fixed extension table of detect_format_from_path
(lines 67-85), as the same if-chain over the lowercased extension;
anything unknown falls through to JPEG. -/
def lookupExt (m : List Char) : ImageFormat :=
  if m = "jpg".data ∨ m = "jpeg".data then ImageFormat.JPEG
  else if m = "png".data then ImageFormat.PNG
  else if m = "webp".data then ImageFormat.WEBP
  else if m = "tiff".data ∨ m = "tif".data then ImageFormat.TIFF
  else if m = "heif".data ∨ m = "heic".data then ImageFormat.HEIF
  else if m = "jp2".data ∨ m = "j2k".data then ImageFormat.JP2K
  else if m = "jxl".data then ImageFormat.JXL
  else if m = "gif".data then ImageFormat.GIF
  else ImageFormat.JPEG

/-- detect_format_from_path, image_compressor.c lines 50-86.  The C code
copies at most 9 characters of the extension into lower_ext before the
table comparison, hence the take 9. -/
def detect_format_from_path (path : List Char) : ImageFormat :=
  match extAfterLastDot path with
  | none => ImageFormat.JPEG
  | some ext => lookupExt ((ext.take 9).map toLowerChar)

/-- Spec-side resolver, following the words of spec section 4.1: read the
path's extension (after the last dot), lowercase it, map it through the
fixed table, default JPEG.  Used only to state the refinement in C6. -/
def resolve_spec (path : List Char) : ImageFormat :=
  match extAfterLastDot path with
  | none => ImageFormat.JPEG
  | some ext => lookupExt (ext.map toLowerChar)

/-- PNG compression level used by compress_image_with_format (lines
592-596), compress_image_with_size_and_format (1243-1247) and
auto_compress_image (2710-2713): 9 - (quality*9)/100 with C truncating
division, then clamped to 0..9. -/
def png_level_cwf (quality : Nat) : Nat :=
  let p : Int := 9 - ((quality : Int) * 9) / 100
  let p := if p < 0 then 0 else p
  let p := if 9 < p then 9 else p
  p.toNat

/-- PNG compression level used by compress_large_image_with_format (lines
2010-2013), compress_large_dslr_image_with_format (2191-2194) and
smart_compress_image_with_format (2401-2404): (quality*9)/100 with C
truncating division, then clamped to 0..9 (no inversion). -/
def png_level_large (quality : Nat) : Nat :=
  let p : Int := ((quality : Int) * 9) / 100
  let p := if p < 0 then 0 else p
  let p := if 9 < p then 9 else p
  p.toNat

/-- Outcome of the default (no explicit target) sizing rule. -/
structure DimPlan where
  needs_resize : Bool
  new_width : Nat
  new_height : Nat
deriving DecidableEq

/-- Default sizing rule of compress_image (lines 198-210), shared by
compress_image_with_format, auto_compress_image and get_image_info:
resize only when a dimension exceeds 6000, the larger dimension becomes
6000 and the smaller becomes (int)((double)smaller * 6000 / larger),
which at int ranges is the natural floor division used here. -/
def default_resize_plan (w h : Nat) : DimPlan :=
  if 6000 < w ∨ 6000 < h then
    if h < w then ⟨true, 6000, h * 6000 / w⟩
    else ⟨true, w * 6000 / h, 6000⟩
  else ⟨false, w, h⟩

/-- Resize plan of the explicit-size entry points: scale plus the new
dimensions, and the encoder quality carried through unchanged. -/
structure SizePlan where
  needs_resize : Bool
  scale : ℚ
  new_width : Nat
  new_height : Nat
  quality : Nat
deriving DecidableEq

/-- Sizing section of compress_image_with_size (lines 781-841).  With both
targets: scales tw/w and th/h are compared, the limiting dimension is set
to its target exactly and the other is (int)(dim * scale), i.e. the floor
division below.  With one target: scale from that dimension alone.  With
none: the 6000 default rule with its scale. -/
def size_plan_cws (w h tw th q : Nat) : SizePlan :=
  if 0 < tw ∨ 0 < th then
    if 0 < tw ∧ 0 < th then
      if (tw : ℚ) / w < (th : ℚ) / h then
        ⟨true, (tw : ℚ) / w, tw, h * tw / w, q⟩
      else
        ⟨true, (th : ℚ) / h, w * th / h, th, q⟩
    else if 0 < tw then
      ⟨true, (tw : ℚ) / w, tw, h * tw / w, q⟩
    else
      ⟨true, (th : ℚ) / h, w * th / h, th, q⟩
  else
    if 6000 < w ∨ 6000 < h then
      if h < w then ⟨true, (6000 : ℚ) / w, 6000, h * 6000 / w, q⟩
      else ⟨true, (6000 : ℚ) / h, w * 6000 / h, 6000, q⟩
    else ⟨false, 1, w, h, q⟩

/-- Sizing section of compress_image_with_size_and_format (lines
1091-1141).  With both targets the code takes scale = min of the two and
sets BOTH dimensions to (int)(dim * scale); with one target it sets that
dimension to the target exactly; with none, the 6000 default rule. -/
def size_plan_cwsf (w h tw th q : Nat) : SizePlan :=
  if 0 < tw ∧ 0 < th then
    let sx : ℚ := (tw : ℚ) / w
    let sy : ℚ := (th : ℚ) / h
    let s : ℚ := if sx < sy then sx else sy
    ⟨true, s, Nat.floor ((w : ℚ) * s), Nat.floor ((h : ℚ) * s), q⟩
  else if 0 < tw then
    ⟨true, (tw : ℚ) / w, tw, h * tw / w, q⟩
  else if 0 < th then
    ⟨true, (th : ℚ) / h, w * th / h, th, q⟩
  else
    if 6000 < w ∨ 6000 < h then
      if h < w then ⟨true, (6000 : ℚ) / w, 6000, h * 6000 / w, q⟩
      else ⟨true, (6000 : ℚ) / h, w * 6000 / h, 6000, q⟩
    else ⟨false, 1, w, h, q⟩

/-- Number of iterations of the quality loop of smart_compress_image
(line 1776): for quality = s; quality >= 40; quality -= 3. -/
def qdCount (s : Nat) : Nat := (s + 3 - 40) / 3

/-- The descending quality sequence tried by smart_compress_image:
s, s-3, s-6, ... down to the last value that is still >= 40. -/
def qualityDescent (s : Nat) : List Nat :=
  (List.range (qdCount s)).map (fun i => s - 3 * i)

/-- One loop iteration of smart_compress_image succeeds at quality q when
the per-iteration pipeline produced a buffer (trial q = some sz with
0 < sz, matching save_result == 0 and buffer and buffer_size > 0, lines
1856-1862) whose truncated KB size sz/1024 lies in [dn, up] (line 1868). -/
def acceptsAt (trial : Nat → Option Nat) (dn up q : Nat) : Bool :=
  match trial q with
  | some sz => if 0 < sz ∧ dn ≤ sz / 1024 ∧ sz / 1024 ≤ up then true else false
  | none => false

/-- The quality sweep of smart_compress_image (lines 1776-1903): walk the
quality list, skip qualities whose iteration failed to produce a buffer,
return the first (quality, buffer size) whose truncated KB size is inside
[dn, up], none when the sweep is exhausted. -/
def searchFirst (trial : Nat → Option Nat) (dn up : Nat) : List Nat → Option (Nat × Nat)
  | [] => none
  | q :: rest =>
    match trial q with
    | some sz =>
      if 0 < sz ∧ dn ≤ sz / 1024 ∧ sz / 1024 ≤ up then some (q, sz)
      else searchFirst trial dn up rest
    | none => searchFirst trial dn up rest

/-- up_size_buffer_kb = (int)(target_kb * 1.2), line 1760; equal to the
rational floor of 6*target_kb/5 throughout the int range. -/
def smart_up_kb (target_kb : Nat) : Nat := target_kb * 6 / 5

/-- down_size_buffer_kb = (int)(target_kb * 0.8), line 1761; equal to the
rational floor of 4*target_kb/5 throughout the int range. -/
def smart_down_kb (target_kb : Nat) : Nat := target_kb * 4 / 5

/-- start_quality = (type == 1) ? 93 : 85, line 1766. -/
def smart_start (ty : Nat) : Nat := if ty = 1 then 93 else 85

/-- smart_compress_image, image_compressor.c lines 1728-1911.  The input
checks (empty path, non-positive target, fopen) come first; the trial
oracle abstracts one whole loop iteration (reload, the 1.3x upscale in
high mode, sRGB copy, jpegsave at the given quality), returning the
resulting buffer size or none when any stage of that iteration failed. -/
def smart_compress (path : String) (fileOk : Bool) (trial : Nat → Option Nat)
    (target_kb ty : Nat) : Option (Nat × Nat) :=
  if path.length = 0 then none
  else if target_kb = 0 then none
  else if fileOk = false then none
  else
    searchFirst trial (smart_down_kb target_kb) (smart_up_kb target_kb)
      (qualityDescent (smart_start ty))

/-- Oracle environment abstracting the libvips capabilities invoked by the
pipeline entry points.  Each field models one foreign call for the single
file the entry point operates on: none means the call failed (returned an
error / NULL), some carries the produced value. -/
structure VipsEnv where
  fileSize : Option Nat
  load : Option Image
  resize : Image → ℚ → Kernel → Option Image
  toSRGB : Image → Option Image
  jpegSaveOpt : Image → Nat → Option Nat
  jpegSavePlain : Image → Nat → Option Nat
  pngSave : Image → Nat → Option Nat
  webpSave : Image → Nat → Option Nat
  webpSaveFast : Image → Nat → Option Nat
  tiffSave : Image → Nat → Option Nat
  heifSave : Image → Nat → Option Nat
  jp2kSave : Image → Nat → Option Nat
  jxlSave : Image → Nat → Option Nat
  gifSave : Image → Option Nat

/-- compress_image, image_compressor.c lines 107-372: validations, load,
dimension checks, the 6000 default resize with a Lanczos-3 kernel, sRGB
copy, then the enhanced jpegsave with a plain jpegsave fallback. -/
def compress_image (env : VipsEnv) (path : String) (quality : Nat) : CompressedImageResult :=
  if path.length = 0 then ⟨none, 0, -1⟩
  else if quality < 1 ∨ 100 < quality then ⟨none, 0, -1⟩
  else
    match env.fileSize with
    | none => ⟨none, 0, -1⟩
    | some _ =>
      match env.load with
      | none => ⟨none, 0, -1⟩
      | some img0 =>
        if img0.width = 0 ∨ img0.height = 0 ∨ img0.bands = 0 then ⟨none, 0, -1⟩
        else
          match (if (default_resize_plan img0.width img0.height).needs_resize then
                   match env.resize img0
                       (if img0.height < img0.width then (6000 : ℚ) / img0.width
                        else (6000 : ℚ) / img0.height) Kernel.lanczos3 with
                   | none => none
                   | some i => if i.width = 0 ∨ i.height = 0 then none else some i
                 else some img0) with
          | none => ⟨none, 0, -1⟩
          | some img1 =>
            match env.toSRGB img1 with
            | none => ⟨none, 0, -1⟩
            | some img2 =>
              match env.jpegSaveOpt img2 quality with
              | some sz =>
                if 0 < sz then ⟨some sz, sz, 1⟩
                else
                  match env.jpegSavePlain img2 quality with
                  | some sz2 => if 0 < sz2 then ⟨some sz2, sz2, 1⟩ else ⟨none, 0, -1⟩
                  | none => ⟨none, 0, -1⟩
              | none =>
                match env.jpegSavePlain img2 quality with
                | some sz2 => if 0 < sz2 then ⟨some sz2, sz2, 1⟩ else ⟨none, 0, -1⟩
                | none => ⟨none, 0, -1⟩

/-- The per-format encode switch of compress_image_with_format (lines
580-661): note the GIF case calls vips_gifsave_buffer unconditionally.
AUTO never reaches the switch (it is resolved before); it maps to the
default branch, a failure. -/
def format_encode (env : VipsEnv) (img : Image) (q : Nat) : ImageFormat → Option Nat
  | ImageFormat.JPEG => env.jpegSaveOpt img q
  | ImageFormat.PNG => env.pngSave img (png_level_cwf q)
  | ImageFormat.WEBP => env.webpSave img q
  | ImageFormat.TIFF => env.tiffSave img q
  | ImageFormat.HEIF => env.heifSave img q
  | ImageFormat.JP2K => env.jp2kSave img q
  | ImageFormat.JXL => env.jxlSave img q
  | ImageFormat.GIF => env.gifSave img
  | ImageFormat.AUTO => none

/-- The per-format encode switch of compress_image_with_size_and_format
(lines 1231-1316) and auto_compress_image (2698-2780): identical to
format_encode except that GIF is only attempted when the final image has
at least 3 bands (lines 1300-1309 and 2766-2774). -/
def format_encode_guarded (env : VipsEnv) (img : Image) (q : Nat) (fmt : ImageFormat) : Option Nat :=
  if fmt = ImageFormat.GIF ∧ img.bands < 3 then none
  else format_encode env img q fmt

/-- compress_image_with_format, image_compressor.c lines 375-691: like
compress_image but AUTO is resolved through the path extension, the sRGB
copy is skipped for GIF, and the encode goes through the unguarded format
switch. -/
def compress_image_with_format (env : VipsEnv) (path : String) (quality : Nat)
    (fmt0 : ImageFormat) : CompressedImageResult :=
  if path.length = 0 then ⟨none, 0, -1⟩
  else if quality < 1 ∨ 100 < quality then ⟨none, 0, -1⟩
  else
    let fmt := if fmt0 = ImageFormat.AUTO then detect_format_from_path path.data else fmt0
    match env.fileSize with
    | none => ⟨none, 0, -1⟩
    | some _ =>
      match env.load with
      | none => ⟨none, 0, -1⟩
      | some img0 =>
        if img0.width = 0 ∨ img0.height = 0 ∨ img0.bands = 0 then ⟨none, 0, -1⟩
        else
          match (if (default_resize_plan img0.width img0.height).needs_resize then
                   match env.resize img0
                       (if img0.height < img0.width then (6000 : ℚ) / img0.width
                        else (6000 : ℚ) / img0.height) Kernel.lanczos3 with
                   | none => none
                   | some i => if i.width = 0 ∨ i.height = 0 then none else some i
                 else some img0) with
          | none => ⟨none, 0, -1⟩
          | some img1 =>
            match (if fmt = ImageFormat.GIF then some img1 else env.toSRGB img1) with
            | none => ⟨none, 0, -1⟩
            | some img2 =>
              match format_encode env img2 quality fmt with
              | some sz => if 0 < sz then ⟨some sz, sz, 1⟩ else ⟨none, 0, -1⟩
              | none => ⟨none, 0, -1⟩

/-- compress_image_with_size_and_format, image_compressor.c lines
998-1346: explicit-target sizing via size_plan_cwsf, the resize scale
recomputed as new_width/width (line 1148), sRGB skipped for GIF, encode
through the band-guarded format switch. -/
def compress_image_with_size_and_format (env : VipsEnv) (path : String)
    (quality tw th : Nat) (fmt0 : ImageFormat) : CompressedImageResult :=
  if path.length = 0 then ⟨none, 0, -1⟩
  else if quality < 1 ∨ 100 < quality then ⟨none, 0, -1⟩
  else
    let fmt := if fmt0 = ImageFormat.AUTO then detect_format_from_path path.data else fmt0
    match env.fileSize with
    | none => ⟨none, 0, -1⟩
    | some _ =>
      match env.load with
      | none => ⟨none, 0, -1⟩
      | some img0 =>
        if img0.width = 0 ∨ img0.height = 0 ∨ img0.bands = 0 then ⟨none, 0, -1⟩
        else
          let plan := size_plan_cwsf img0.width img0.height tw th quality
          match (if plan.needs_resize then
                   match env.resize img0 ((plan.new_width : ℚ) / img0.width) Kernel.lanczos3 with
                   | none => none
                   | some i => if i.width = 0 ∨ i.height = 0 then none else some i
                 else some img0) with
          | none => ⟨none, 0, -1⟩
          | some img1 =>
            match (if fmt = ImageFormat.GIF then some img1 else env.toSRGB img1) with
            | none => ⟨none, 0, -1⟩
            | some img2 =>
              match format_encode_guarded env img2 quality fmt with
              | some sz => if 0 < sz then ⟨some sz, sz, 1⟩ else ⟨none, 0, -1⟩
              | none => ⟨none, 0, -1⟩

/-- The fixed candidate order of auto_compress_image, lines 2671-2680. -/
def autoFormats : List ImageFormat :=
  [ImageFormat.WEBP, ImageFormat.JPEG, ImageFormat.JXL, ImageFormat.HEIF,
   ImageFormat.JP2K, ImageFormat.TIFF, ImageFormat.PNG, ImageFormat.GIF]

/-- The comparison buffer_size < best_size of line 2786, where best_size
starts at SIZE_MAX; none models that sentinel (every size is below it). -/
def smallerThan (sz : Nat) : Option Nat → Bool
  | none => true
  | some bs => decide (sz < bs)

/-- The format loop of auto_compress_image (lines 2684-2818): try each
candidate at the same quality, skip failures, keep the strictly smallest
successful buffer as the running best (the C also tracks best_format, but
only for logging). -/
def auto_try_formats (env : VipsEnv) (img : Image) (q : Nat) :
    List ImageFormat → CompressedImageResult → Option Nat → CompressedImageResult
  | [], best, _ => best
  | fmt :: rest, best, bestSize =>
    match format_encode_guarded env img q fmt with
    | some sz =>
      if 0 < sz then
        if smallerThan sz bestSize then
          auto_try_formats env img q rest ⟨some sz, sz, 1⟩ (some sz)
        else auto_try_formats env img q rest best bestSize
      else auto_try_formats env img q rest best bestSize
    | none => auto_try_formats env img q rest best bestSize

/-- auto_compress_image, image_compressor.c lines 2487-2836: the
compress_image pipeline up to the final image, then the best-of-formats
loop; the function's result is the loop's best only when that best
carries success == 1, otherwise the untouched failure result. -/
def auto_compress (env : VipsEnv) (path : String) (quality : Nat) : CompressedImageResult :=
  if path.length = 0 then ⟨none, 0, -1⟩
  else if quality < 1 ∨ 100 < quality then ⟨none, 0, -1⟩
  else
    match env.fileSize with
    | none => ⟨none, 0, -1⟩
    | some _ =>
      match env.load with
      | none => ⟨none, 0, -1⟩
      | some img0 =>
        if img0.width = 0 ∨ img0.height = 0 ∨ img0.bands = 0 then ⟨none, 0, -1⟩
        else
          match (if (default_resize_plan img0.width img0.height).needs_resize then
                   match env.resize img0
                       (if img0.height < img0.width then (6000 : ℚ) / img0.width
                        else (6000 : ℚ) / img0.height) Kernel.lanczos3 with
                   | none => none
                   | some i => if i.width = 0 ∨ i.height = 0 then none else some i
                 else some img0) with
          | none => ⟨none, 0, -1⟩
          | some img1 =>
            match env.toSRGB img1 with
            | none => ⟨none, 0, -1⟩
            | some img2 =>
              let best := auto_try_formats env img2 quality autoFormats ⟨none, 0, -1⟩ none
              if best.success = 1 then best else ⟨none, 0, -1⟩

/-- fast_webp_compress, image_compressor.c lines 2839-3008: no file-size
probe, resize only above the 8000 threshold and with the LINEAR kernel,
then sRGB copy and the speed-tuned webpsave. -/
def fast_webp_compress (env : VipsEnv) (path : String) (quality : Nat) : CompressedImageResult :=
  if path.length = 0 then ⟨none, 0, -1⟩
  else if quality < 1 ∨ 100 < quality then ⟨none, 0, -1⟩
  else
    match env.load with
    | none => ⟨none, 0, -1⟩
    | some img0 =>
      if img0.width = 0 ∨ img0.height = 0 ∨ img0.bands = 0 then ⟨none, 0, -1⟩
      else
        match (if 8000 < img0.width ∨ 8000 < img0.height then
                 env.resize img0
                   (if img0.height < img0.width then (8000 : ℚ) / img0.width
                    else (8000 : ℚ) / img0.height) Kernel.linear
               else some img0) with
        | none => ⟨none, 0, -1⟩
        | some img1 =>
          match env.toSRGB img1 with
          | none => ⟨none, 0, -1⟩
          | some img2 =>
            match env.webpSaveFast img2 quality with
            | some sz => if 0 < sz then ⟨some sz, sz, 1⟩ else ⟨none, 0, -1⟩
            | none => ⟨none, 0, -1⟩

/-- Trial oracle for the C1 witness: quality 82 yields a 500 KB buffer,
every other quality a 2000 KB buffer. -/
def trialW : Nat → Option Nat := fun q => if q = 82 then some 512000 else some 2048000

/-- A small RGB image used by witness environments. -/
def imgSmall : Image := ⟨1200, 800, 3⟩

/-- A single-band image used by the C9 theorems. -/
def imgGray : Image := ⟨10, 10, 1⟩

/-- An image whose larger dimension lies in (6000, 8000], for C10. -/
def imgMid : Image := ⟨7000, 5000, 3⟩

/-- Environment in which every libvips call fails (the file cannot even
be opened). -/
def envFail : VipsEnv :=
  { fileSize := none, load := none,
    resize := fun _ _ _ => none, toSRGB := fun _ => none,
    jpegSaveOpt := fun _ _ => none, jpegSavePlain := fun _ _ => none,
    pngSave := fun _ _ => none, webpSave := fun _ _ => none,
    webpSaveFast := fun _ _ => none, tiffSave := fun _ _ => none,
    heifSave := fun _ _ => none, jp2kSave := fun _ _ => none,
    jxlSave := fun _ _ => none, gifSave := fun _ => none }

/-- Environment for the C5 witness: WEBP, JPEG and PNG encodes succeed
with sizes 120, 150 and 300; everything else fails. -/
def envC5 : VipsEnv :=
  { fileSize := some 5000, load := some imgSmall,
    resize := fun _ _ _ => none, toSRGB := fun i => some i,
    jpegSaveOpt := fun _ _ => some 150, jpegSavePlain := fun _ _ => some 150,
    pngSave := fun _ _ => some 300, webpSave := fun _ _ => some 120,
    webpSaveFast := fun _ _ => some 55, tiffSave := fun _ _ => none,
    heifSave := fun _ _ => none, jp2kSave := fun _ _ => none,
    jxlSave := fun _ _ => none, gifSave := fun _ => none }

/-- Environment for the C9 theorems: a 1-band image loads fine and the
GIF encoder would succeed with 123 bytes. -/
def envC9 : VipsEnv :=
  { fileSize := some 1000, load := some imgGray,
    resize := fun _ _ _ => none, toSRGB := fun i => some i,
    jpegSaveOpt := fun _ _ => none, jpegSavePlain := fun _ _ => none,
    pngSave := fun _ _ => none, webpSave := fun _ _ => none,
    webpSaveFast := fun _ _ => none, tiffSave := fun _ _ => none,
    heifSave := fun _ _ => none, jp2kSave := fun _ _ => none,
    jxlSave := fun _ _ => none, gifSave := fun _ => some 123 }

/-- Environment for the C10 witness: a 7000x5000 image, working sRGB
copy and fast WebP encoder, and a resize oracle that always fails (so a
successful run certifies that resize was never consulted). -/
def envC10 : VipsEnv :=
  { fileSize := some 1000, load := some imgMid,
    resize := fun _ _ _ => none, toSRGB := fun i => some i,
    jpegSaveOpt := fun _ _ => none, jpegSavePlain := fun _ _ => none,
    pngSave := fun _ _ => none, webpSave := fun _ _ => none,
    webpSaveFast := fun _ _ => some 55, tiffSave := fun _ _ => none,
    heifSave := fun _ _ => none, jp2kSave := fun _ _ => none,
    jxlSave := fun _ _ => none, gifSave := fun _ => none }

theorem lookupExt_long (m : List Char) (hm : 4 < m.length) : lookupExt m = ImageFormat.JPEG := by
  have hne : ∀ k : List Char, k.length ≤ 4 → ¬ m = k := by
    intro k hk e; rw [e] at hm; omega
  unfold lookupExt
  rw [if_neg (by rintro (h | h) <;> exact hne _ (by decide) h),
      if_neg (hne _ (by decide)),
      if_neg (hne _ (by decide)),
      if_neg (by rintro (h | h) <;> exact hne _ (by decide) h),
      if_neg (by rintro (h | h) <;> exact hne _ (by decide) h),
      if_neg (by rintro (h | h) <;> exact hne _ (by decide) h),
      if_neg (hne _ (by decide)),
      if_neg (hne _ (by decide))]

theorem lookupExt_take9 (m : List Char) : lookupExt (m.take 9) = lookupExt m := by
  by_cases h : m.length ≤ 9
  · rw [List.take_of_length_le h]
  · rw [lookupExt_long _ (by rw [List.length_take]; omega), lookupExt_long _ (by omega)]

/-- C6: detect_format_from_path is a total function that reads the
extension after the last dot case-insensitively, maps it through the
fixed table (jpg/jpeg, png, webp, tiff/tif, heif/heic, jp2/j2k, jxl,
gif) and defaults to JPEG for an unknown or missing extension; it agrees
everywhere with the resolver described by the spec, and in particular
"photo.HEIC" resolves to HEIF. -/
theorem format_resolver_table :
    (∀ path : List Char, detect_format_from_path path = resolve_spec path) ∧
    detect_format_from_path "photo.HEIC".data = ImageFormat.HEIF ∧
    detect_format_from_path "a.Jpg".data = ImageFormat.JPEG ∧
    detect_format_from_path "b.unknownext".data = ImageFormat.JPEG ∧
    detect_format_from_path "noext".data = ImageFormat.JPEG := by
  refine ⟨?_, by decide, by decide, by decide, by decide⟩
  intro path
  unfold detect_format_from_path resolve_spec
  cases extAfterLastDot path with
  | none => rfl
  | some e =>
    dsimp only
    rw [List.map_take, lookupExt_take9]

/-- C3 (amended): for quality 1..100 the PNG path of
compress_image_with_format passes level 9 - floor(quality*9/100) while
compress_large_image_with_format passes floor(quality*9/100) — floor
(C truncating division), not round; both levels land in 0..9 and are
exact complements. -/
theorem png_level_mapping (q : Nat) (h1 : 1 ≤ q) (h2 : q ≤ 100) :
    png_level_cwf q = 9 - q * 9 / 100 ∧
    png_level_large q = q * 9 / 100 ∧
    png_level_cwf q ≤ 9 ∧ png_level_large q ≤ 9 ∧
    png_level_cwf q + png_level_large q = 9 := by
  have hcast : (((q * 9 / 100 : Nat)) : Int) = ((q : Int) * 9) / 100 := by omega
  unfold png_level_cwf png_level_large
  rw [← hcast]
  have hb : q * 9 / 100 ≤ 9 := by omega
  dsimp only
  split_ifs <;> omega

/-- C3 counterexample: at quality 50 the code path of
compress_image_with_format passes PNG level 5 = 9 - floor(4.5) and the
large path passes 4 = floor(4.5), whereas the claimed formulas with
round(4.5) = 5 give 4 and 5 respectively. -/
theorem png_level_round_cex :
    png_level_cwf 50 = 5 ∧ png_level_large 50 = 4 ∧
    (9 - round ((50 * 9 : ℚ) / 100) : Int) = 4 ∧
    (round ((50 * 9 : ℚ) / 100) : Int) = 5 := by
  refine ⟨by decide, by decide, ?_, ?_⟩ <;> norm_num [round_eq]

/-- C3 witness at quality 93. -/
theorem png_level_mapping_witness :
    png_level_cwf 93 = 9 - 93 * 9 / 100 ∧
    png_level_large 93 = 93 * 9 / 100 ∧
    png_level_cwf 93 ≤ 9 ∧ png_level_large 93 ≤ 9 ∧
    png_level_cwf 93 + png_level_large 93 = 9 :=
  png_level_mapping 93 (by decide) (by decide)

/-- C7: the quality descent of the Target-Size Search is a finite list
(so the loop terminates); its length never exceeds ceil((s-40)/3)+1, and
the concrete starts 93 and 85 perform 18 and 16 trials, within the
claimed bounds 19 and 16. -/
theorem target_search_trial_bound :
    (∀ s : Nat, (qualityDescent s).length ≤ (s - 40 + 2) / 3 + 1) ∧
    (qualityDescent 93).length = 18 ∧ 18 ≤ 19 ∧
    (qualityDescent 85).length = 16 ∧ 16 ≤ 16 := by
  refine ⟨?_, by decide, by decide, by decide, by decide⟩
  intro s
  simp only [qualityDescent, List.length_map, List.length_range, qdCount]
  omega

theorem qd_recur (s : Nat) :
    qualityDescent s = if 40 ≤ s then s :: qualityDescent (s - 3) else [] := by
  by_cases h : 40 ≤ s
  · rw [if_pos h]
    unfold qualityDescent qdCount
    have h1 : (s + 3 - 40) / 3 = (s - 3 + 3 - 40) / 3 + 1 := by omega
    rw [h1, List.range_succ_eq_map, List.map_cons, List.map_map]
    refine congrArg₂ List.cons ?_ ?_
    · show s - 3 * 0 = s
      omega
    · refine List.map_congr_left ?_
      intro i _
      show s - 3 * (i + 1) = s - 3 - 3 * i
      omega
  · rw [if_neg h]
    unfold qualityDescent qdCount
    have h1 : (s + 3 - 40) / 3 = 0 := by omega
    rw [h1]
    rfl

theorem qd_mem_bounds (s : Nat) : ∀ q ∈ qualityDescent s, 40 ≤ q ∧ q ≤ s := by
  induction s using Nat.strong_induction_on with
  | _ s ih =>
    rw [qd_recur s]
    by_cases h40 : 40 ≤ s
    · rw [if_pos h40]
      intro q hq
      rcases List.mem_cons.mp hq with rfl | hq'
      · exact ⟨h40, le_refl _⟩
      · have := ih (s - 3) (by omega) q hq'
        omega
    · rw [if_neg h40]
      intro q hq
      simp at hq

theorem qd_sorted (s : Nat) : List.Pairwise (fun a b => b < a) (qualityDescent s) := by
  induction s using Nat.strong_induction_on with
  | _ s ih =>
    rw [qd_recur s]
    by_cases h40 : 40 ≤ s
    · rw [if_pos h40]
      refine List.Pairwise.cons ?_ (ih (s - 3) (by omega))
      intro b hb
      have := qd_mem_bounds (s - 3) b hb
      omega
    · rw [if_neg h40]
      exact List.Pairwise.nil

theorem searchFirst_cons_none (trial : Nat → Option Nat) (dn up a : Nat) (rest : List Nat)
    (h : trial a = none) :
    searchFirst trial dn up (a :: rest) = searchFirst trial dn up rest := by
  conv_lhs => unfold searchFirst
  rw [h]

theorem searchFirst_cons_acc (trial : Nat → Option Nat) (dn up a sz : Nat) (rest : List Nat)
    (h : trial a = some sz) (hc : 0 < sz ∧ dn ≤ sz / 1024 ∧ sz / 1024 ≤ up) :
    searchFirst trial dn up (a :: rest) = some (a, sz) := by
  conv_lhs => unfold searchFirst
  rw [h]
  show (if 0 < sz ∧ dn ≤ sz / 1024 ∧ sz / 1024 ≤ up then some (a, sz)
        else searchFirst trial dn up rest) = some (a, sz)
  rw [if_pos hc]

theorem searchFirst_cons_rej (trial : Nat → Option Nat) (dn up a sz : Nat) (rest : List Nat)
    (h : trial a = some sz) (hc : ¬ (0 < sz ∧ dn ≤ sz / 1024 ∧ sz / 1024 ≤ up)) :
    searchFirst trial dn up (a :: rest) = searchFirst trial dn up rest := by
  conv_lhs => unfold searchFirst
  rw [h]
  show (if 0 < sz ∧ dn ≤ sz / 1024 ∧ sz / 1024 ≤ up then some (a, sz)
        else searchFirst trial dn up rest) = searchFirst trial dn up rest
  rw [if_neg hc]

theorem acceptsAt_none (trial : Nat → Option Nat) (dn up a : Nat) (h : trial a = none) :
    acceptsAt trial dn up a = false := by
  unfold acceptsAt
  rw [h]

theorem acceptsAt_some (trial : Nat → Option Nat) (dn up a sz : Nat) (h : trial a = some sz) :
    acceptsAt trial dn up a =
      if 0 < sz ∧ dn ≤ sz / 1024 ∧ sz / 1024 ≤ up then true else false := by
  unfold acceptsAt
  rw [h]

theorem searchFirst_none_iff (trial : Nat → Option Nat) (dn up : Nat) (l : List Nat) :
    searchFirst trial dn up l = none ↔ ∀ q ∈ l, acceptsAt trial dn up q = false := by
  induction l with
  | nil => simp [searchFirst]
  | cons a rest ih =>
    cases htr : trial a with
    | none =>
      rw [searchFirst_cons_none _ _ _ _ _ htr]
      simp only [List.forall_mem_cons, ih, acceptsAt_none _ dn up _ htr, true_and]
    | some sz =>
      by_cases hc : 0 < sz ∧ dn ≤ sz / 1024 ∧ sz / 1024 ≤ up
      · rw [searchFirst_cons_acc _ _ _ _ _ _ htr hc]
        have ha : acceptsAt trial dn up a = true := by
          rw [acceptsAt_some _ _ _ _ _ htr, if_pos hc]
        simp [List.forall_mem_cons, ha]
      · rw [searchFirst_cons_rej _ _ _ _ _ _ htr hc]
        have ha : acceptsAt trial dn up a = false := by
          rw [acceptsAt_some _ _ _ _ _ htr, if_neg hc]
        simp only [List.forall_mem_cons, ih, ha, true_and]

theorem searchFirst_some (trial : Nat → Option Nat) (dn up : Nat) :
    ∀ (l : List Nat) (q sz : Nat),
      searchFirst trial dn up l = some (q, sz) →
      q ∈ l ∧ trial q = some sz ∧ 0 < sz ∧ dn ≤ sz / 1024 ∧ sz / 1024 ≤ up ∧
      ∃ l₁ l₂, l = l₁ ++ q :: l₂ ∧ ∀ q' ∈ l₁, acceptsAt trial dn up q' = false := by
  intro l
  induction l with
  | nil => intro q sz h; simp [searchFirst] at h
  | cons a rest ih =>
    intro q sz h
    cases htr : trial a with
    | none =>
      rw [searchFirst_cons_none _ _ _ _ _ htr] at h
      obtain ⟨hmem, ht, h0, hdn, hup, l₁, l₂, hdec, hpre⟩ := ih q sz h
      refine ⟨List.mem_cons_of_mem _ hmem, ht, h0, hdn, hup, a :: l₁, l₂, by rw [hdec]; rfl, ?_⟩
      intro q' hq'
      rcases List.mem_cons.mp hq' with rfl | hq''
      · exact acceptsAt_none _ _ _ _ htr
      · exact hpre q' hq''
    | some sz' =>
      by_cases hc : 0 < sz' ∧ dn ≤ sz' / 1024 ∧ sz' / 1024 ≤ up
      · rw [searchFirst_cons_acc _ _ _ _ _ _ htr hc] at h
        have h1 := Option.some.inj h
        have ha : a = q := congrArg Prod.fst h1
        have hsz : sz' = sz := congrArg Prod.snd h1
        subst ha; subst hsz
        exact ⟨List.mem_cons_self _ _, htr, hc.1, hc.2.1, hc.2.2, [], rest, rfl, by simp⟩
      · rw [searchFirst_cons_rej _ _ _ _ _ _ htr hc] at h
        obtain ⟨hmem, ht, h0, hdn, hup, l₁, l₂, hdec, hpre⟩ := ih q sz h
        refine ⟨List.mem_cons_of_mem _ hmem, ht, h0, hdn, hup, a :: l₁, l₂, by rw [hdec]; rfl, ?_⟩
        intro q' hq'
        rcases List.mem_cons.mp hq' with rfl | hq''
        · rw [acceptsAt_some _ _ _ _ _ htr, if_neg hc]
        · exact hpre q' hq''

/-- C1 (amended): for a valid path, open file and positive target, the
Target-Size Search starts at 93 in high mode (type 1) and 85 otherwise,
descends in steps of 3 down to the floor 40, and returns the first trial
whose truncated size in KB (bytes/1024) lies in the truncated band
[floor(0.8*target_kb), floor(1.2*target_kb)] — stopping at the first
acceptable trial, every strictly higher (earlier) quality having been
rejected — and returns failure exactly when no tried quality lands in
that band. -/
theorem smart_search_first_acceptable (path : String) (fk : Bool)
    (trial : Nat → Option Nat) (t ty : Nat)
    (hpath : ¬ path.length = 0) (hfk : fk = true) (ht : 0 < t) :
    (∀ q sz, smart_compress path fk trial t ty = some (q, sz) →
       q ∈ qualityDescent (smart_start ty) ∧ trial q = some sz ∧ 0 < sz ∧
       smart_down_kb t ≤ sz / 1024 ∧ sz / 1024 ≤ smart_up_kb t ∧
       ∀ q' ∈ qualityDescent (smart_start ty), q < q' →
         acceptsAt trial (smart_down_kb t) (smart_up_kb t) q' = false) ∧
    (smart_compress path fk trial t ty = none ↔
       ∀ q ∈ qualityDescent (smart_start ty),
         acceptsAt trial (smart_down_kb t) (smart_up_kb t) q = false) ∧
    smart_start 1 = 93 ∧ smart_start 0 = 85 := by
  subst hfk
  have hs : smart_compress path true trial t ty =
      searchFirst trial (smart_down_kb t) (smart_up_kb t) (qualityDescent (smart_start ty)) := by
    unfold smart_compress
    rw [if_neg hpath, if_neg (by omega)]
    simp
  refine ⟨?_, ?_, rfl, rfl⟩
  · intro q sz h
    rw [hs] at h
    obtain ⟨hmem, htr, h0, hdn, hup, l₁, l₂, hdec, hpre⟩ := searchFirst_some _ _ _ _ _ _ h
    refine ⟨hmem, htr, h0, hdn, hup, ?_⟩
    intro q' hq' hlt
    have hsort := qd_sorted (smart_start ty)
    rw [hdec] at hsort hq'
    rcases List.mem_append.mp hq' with h1 | h2
    · exact hpre q' h1
    · rcases List.mem_cons.mp h2 with rfl | h3
      · omega
      · have hsub : List.Pairwise (fun a b => b < a) (q :: l₂) :=
          hsort.sublist (List.sublist_append_right _ _)
        have hqq : q' < q := (List.pairwise_cons.mp hsub).1 q' h3
        omega
  · rw [hs, searchFirst_none_iff]

/-- C1 witness: target 500 KB in low mode, every trial 2000 KB except
quality 82 which yields exactly 500 KB; the search accepts (82, 512000)
and the theorem's characterization applies. -/
theorem smart_search_first_acceptable_witness :
    82 ∈ qualityDescent (smart_start 0) ∧ trialW 82 = some 512000 ∧ 0 < 512000 ∧
    smart_down_kb 500 ≤ 512000 / 1024 ∧ 512000 / 1024 ≤ smart_up_kb 500 ∧
    ∀ q' ∈ qualityDescent (smart_start 0), 82 < q' →
      acceptsAt trialW (smart_down_kb 500) (smart_up_kb 500) q' = false :=
  (smart_search_first_acceptable "x.jpg" true trialW 500 0 (by decide) rfl (by decide)).1
    82 512000 (by decide)

/-- C1 counterexample: with target_kb = 501 and an encoder that always
produces a 409600-byte (exactly 400 KB) buffer, the code accepts the
very first trial (quality 85, low mode) because its truncated band is
[400, 601]; but 400 KB is strictly below 0.8 * 501 = 400.8 KB, so the
returned encoding's size in KB does NOT lie within the claimed band
[0.8 * target_kb, 1.2 * target_kb], and in particular the search does
not return failure although no tried size lies in that band. -/
theorem smart_search_band_cex :
    smart_compress "a.jpg" true (fun _ => some 409600) 501 0 = some (85, 409600) ∧
    ((409600 : ℚ) / 1024) < (8 / 10) * 501 := by
  constructor
  · decide
  · norm_num

/-- C2: with no explicit target, the sizing rule keeps the image
untouched when max(width, height) is at most 6000; above that cap it
resizes so the larger dimension becomes exactly 6000 and the smaller
becomes smaller * 6000 / larger (floor), preserving the aspect ratio
within rounding. -/
theorem default_cap_sizing (w h : Nat) (hw : 0 < w) (hh : 0 < h) :
    (max w h ≤ 6000 → default_resize_plan w h = ⟨false, w, h⟩) ∧
    (6000 < max w h →
      (default_resize_plan w h).needs_resize = true ∧
      max (default_resize_plan w h).new_width (default_resize_plan w h).new_height = 6000 ∧
      min (default_resize_plan w h).new_width (default_resize_plan w h).new_height =
        min w h * 6000 / max w h) := by
  constructor
  · intro hle
    have hw6 : w ≤ 6000 := le_trans (le_max_left _ _) hle
    have hh6 : h ≤ 6000 := le_trans (le_max_right _ _) hle
    unfold default_resize_plan
    rw [if_neg (by omega)]
  · intro hgt
    have hor : 6000 < w ∨ 6000 < h := lt_max_iff.mp hgt
    unfold default_resize_plan
    rw [if_pos hor]
    by_cases hcmp : h < w
    · rw [if_pos hcmp]
      have hle : h * 6000 / w ≤ 6000 := by
        have h1 : h * 6000 / w ≤ w * 6000 / w :=
          Nat.div_le_div_right (Nat.mul_le_mul_right 6000 (le_of_lt hcmp))
        rwa [Nat.mul_div_cancel_left 6000 hw] at h1
      refine ⟨rfl, ?_, ?_⟩
      · exact max_eq_left hle
      · rw [show (⟨true, 6000, h * 6000 / w⟩ : DimPlan).new_width = 6000 from rfl,
            show (⟨true, 6000, h * 6000 / w⟩ : DimPlan).new_height = h * 6000 / w from rfl,
            min_eq_right hle, max_eq_left (le_of_lt hcmp), min_eq_right (le_of_lt hcmp)]
    · rw [if_neg hcmp]
      push_neg at hcmp
      have hle : w * 6000 / h ≤ 6000 := by
        have h1 : w * 6000 / h ≤ h * 6000 / h :=
          Nat.div_le_div_right (Nat.mul_le_mul_right 6000 hcmp)
        rwa [Nat.mul_div_cancel_left 6000 hh] at h1
      refine ⟨rfl, ?_, ?_⟩
      · exact max_eq_right hle
      · rw [show (⟨true, w * 6000 / h, 6000⟩ : DimPlan).new_width = w * 6000 / h from rfl,
            show (⟨true, w * 6000 / h, 6000⟩ : DimPlan).new_height = 6000 from rfl,
            min_eq_left hle, max_eq_right hcmp, min_eq_left hcmp]

/-- C2 witness: a 9000x6000 image is resized to 6000x4000. -/
theorem default_cap_sizing_witness :
    (default_resize_plan 9000 6000).needs_resize = true ∧
    max (default_resize_plan 9000 6000).new_width (default_resize_plan 9000 6000).new_height
      = 6000 ∧
    min (default_resize_plan 9000 6000).new_width (default_resize_plan 9000 6000).new_height
      = min 9000 6000 * 6000 / max 9000 6000 :=
  (default_cap_sizing 9000 6000 (by decide) (by decide)).2 (by decide)

/-- C4: with both explicit targets positive, the sizing of both
compress_image_with_size and compress_image_with_size_and_format uses
scale = min(targetWidth/width, targetHeight/height) and the resulting
dimensions never exceed their targets; with only one target positive,
the scale comes from that dimension alone; in every case the requested
quality is carried through unchanged to the encoder. -/
theorem explicit_target_plan (w h tw th q : Nat) (hw : 0 < w) (hh : 0 < h) :
    (0 < tw → 0 < th →
      (size_plan_cws w h tw th q).scale = min ((tw : ℚ) / w) ((th : ℚ) / h) ∧
      (size_plan_cws w h tw th q).new_width ≤ tw ∧
      (size_plan_cws w h tw th q).new_height ≤ th ∧
      (size_plan_cwsf w h tw th q).scale = min ((tw : ℚ) / w) ((th : ℚ) / h) ∧
      (size_plan_cwsf w h tw th q).new_width ≤ tw ∧
      (size_plan_cwsf w h tw th q).new_height ≤ th) ∧
    (0 < tw → th = 0 →
      (size_plan_cws w h tw th q).scale = (tw : ℚ) / w ∧
      (size_plan_cwsf w h tw th q).scale = (tw : ℚ) / w) ∧
    (tw = 0 → 0 < th →
      (size_plan_cws w h tw th q).scale = (th : ℚ) / h ∧
      (size_plan_cwsf w h tw th q).scale = (th : ℚ) / h) ∧
    (size_plan_cws w h tw th q).quality = q ∧
    (size_plan_cwsf w h tw th q).quality = q := by
  have hwQ : (0 : ℚ) < (w : ℚ) := by exact_mod_cast hw
  have hhQ : (0 : ℚ) < (h : ℚ) := by exact_mod_cast hh
  refine ⟨?_, ?_, ?_, ?_, ?_⟩
  · intro htw hth
    have hmin : (if (tw : ℚ) / w < (th : ℚ) / h then (tw : ℚ) / w else (th : ℚ) / h)
        = min ((tw : ℚ) / w) ((th : ℚ) / h) := by
      by_cases hc : (tw : ℚ) / w < (th : ℚ) / h
      · rw [if_pos hc, min_eq_left (le_of_lt hc)]
      · rw [if_neg hc, min_eq_right (le_of_not_lt hc)]
    have h1 : size_plan_cws w h tw th q =
        (if (tw : ℚ) / w < (th : ℚ) / h then ⟨true, (tw : ℚ) / w, tw, h * tw / w, q⟩
         else ⟨true, (th : ℚ) / h, w * th / h, th, q⟩ : SizePlan) := by
      unfold size_plan_cws
      rw [if_pos (Or.inl htw), if_pos ⟨htw, hth⟩]
    have h2 : size_plan_cwsf w h tw th q =
        (⟨true, min ((tw : ℚ) / w) ((th : ℚ) / h),
          Nat.floor ((w : ℚ) * min ((tw : ℚ) / w) ((th : ℚ) / h)),
          Nat.floor ((h : ℚ) * min ((tw : ℚ) / w) ((th : ℚ) / h)), q⟩ : SizePlan) := by
      unfold size_plan_cwsf
      rw [if_pos ⟨htw, hth⟩]
      dsimp only
      rw [hmin]
    have hfw : Nat.floor ((w : ℚ) * min ((tw : ℚ) / w) ((th : ℚ) / h)) ≤ tw := by
      have hle : (w : ℚ) * min ((tw : ℚ) / w) ((th : ℚ) / h) ≤ (tw : ℚ) := by
        calc (w : ℚ) * min ((tw : ℚ) / w) ((th : ℚ) / h)
            ≤ (w : ℚ) * ((tw : ℚ) / w) :=
              mul_le_mul_of_nonneg_left (min_le_left _ _) (le_of_lt hwQ)
          _ = (tw : ℚ) := by field_simp
      calc Nat.floor ((w : ℚ) * min ((tw : ℚ) / w) ((th : ℚ) / h))
          ≤ Nat.floor ((tw : ℚ)) := Nat.floor_le_floor hle
        _ = tw := Nat.floor_natCast _
    have hfh : Nat.floor ((h : ℚ) * min ((tw : ℚ) / w) ((th : ℚ) / h)) ≤ th := by
      have hle : (h : ℚ) * min ((tw : ℚ) / w) ((th : ℚ) / h) ≤ (th : ℚ) := by
        calc (h : ℚ) * min ((tw : ℚ) / w) ((th : ℚ) / h)
            ≤ (h : ℚ) * ((th : ℚ) / h) :=
              mul_le_mul_of_nonneg_left (min_le_right _ _) (le_of_lt hhQ)
          _ = (th : ℚ) := by field_simp
      calc Nat.floor ((h : ℚ) * min ((tw : ℚ) / w) ((th : ℚ) / h))
          ≤ Nat.floor ((th : ℚ)) := Nat.floor_le_floor hle
        _ = th := Nat.floor_natCast _
    refine ⟨?_, ?_, ?_, by rw [h2], by rw [h2]; exact hfw, by rw [h2]; exact hfh⟩
    · rw [h1]
      by_cases hc : (tw : ℚ) / w < (th : ℚ) / h
      · rw [if_pos hc, ← hmin, if_pos hc]
      · rw [if_neg hc, ← hmin, if_neg hc]
    · rw [h1]
      by_cases hc : (tw : ℚ) / w < (th : ℚ) / h
      · rw [if_pos hc]
      · rw [if_neg hc]
        have hnat : th * w ≤ tw * h := by
          have := (div_le_div_iff₀ hhQ hwQ).mp (le_of_not_lt hc)
          exact_mod_cast this
        have : w * th ≤ h * tw := by
          calc w * th = th * w := Nat.mul_comm _ _
            _ ≤ tw * h := hnat
            _ = h * tw := Nat.mul_comm _ _
        exact (Nat.div_le_iff_le_mul_add_pred hh).mpr (by omega)
    · rw [h1]
      by_cases hc : (tw : ℚ) / w < (th : ℚ) / h
      · rw [if_pos hc]
        have hnat : tw * h < th * w := by
          have := (div_lt_div_iff₀ hwQ hhQ).mp hc
          exact_mod_cast this
        have : h * tw < w * th := by
          calc h * tw = tw * h := Nat.mul_comm _ _
            _ < th * w := hnat
            _ = w * th := Nat.mul_comm _ _
        exact (Nat.div_le_iff_le_mul_add_pred hw).mpr (by omega)
      · rw [if_neg hc]
  · intro htw hth0
    subst hth0
    constructor
    · unfold size_plan_cws
      rw [if_pos (Or.inl htw), if_neg (by rintro ⟨-, h0⟩; omega), if_pos htw]
    · unfold size_plan_cwsf
      rw [if_neg (by rintro ⟨-, h0⟩; omega), if_pos htw]
  · intro htw0 hth
    subst htw0
    constructor
    · unfold size_plan_cws
      rw [if_pos (Or.inr hth), if_neg (by rintro ⟨h0, -⟩; omega), if_neg (by omega)]
    · unfold size_plan_cwsf
      rw [if_neg (by rintro ⟨h0, -⟩; omega), if_neg (by omega), if_pos hth]
  · unfold size_plan_cws
    split_ifs <;> rfl
  · unfold size_plan_cwsf
    split_ifs <;> rfl

/-- C4 witness: a 1000x500 image with a 200x200 target box. -/
theorem explicit_target_plan_witness :
    (size_plan_cws 1000 500 200 200 77).scale = min ((200 : ℚ) / 1000) ((200 : ℚ) / 500) ∧
    (size_plan_cws 1000 500 200 200 77).new_width ≤ 200 ∧
    (size_plan_cws 1000 500 200 200 77).new_height ≤ 200 ∧
    (size_plan_cwsf 1000 500 200 200 77).scale = min ((200 : ℚ) / 1000) ((200 : ℚ) / 500) ∧
    (size_plan_cwsf 1000 500 200 200 77).new_width ≤ 200 ∧
    (size_plan_cwsf 1000 500 200 200 77).new_height ≤ 200 :=
  (explicit_target_plan 1000 500 200 200 77 (by decide) (by decide)).1 (by decide) (by decide)

theorem auto_try_nil (env : VipsEnv) (img : Image) (q : Nat)
    (best : CompressedImageResult) (bs : Option Nat) :
    auto_try_formats env img q [] best bs = best := rfl

theorem auto_try_cons_none (env : VipsEnv) (img : Image) (q : Nat) (fmt : ImageFormat)
    (rest : List ImageFormat) (best : CompressedImageResult) (bs : Option Nat)
    (henc : format_encode_guarded env img q fmt = none) :
    auto_try_formats env img q (fmt :: rest) best bs =
      auto_try_formats env img q rest best bs := by
  conv_lhs => unfold auto_try_formats
  rw [henc]

theorem auto_try_cons_some (env : VipsEnv) (img : Image) (q : Nat) (fmt : ImageFormat)
    (rest : List ImageFormat) (best : CompressedImageResult) (bs : Option Nat) (sz : Nat)
    (henc : format_encode_guarded env img q fmt = some sz) :
    auto_try_formats env img q (fmt :: rest) best bs =
      if 0 < sz then
        if smallerThan sz bs = true then
          auto_try_formats env img q rest ⟨some sz, sz, 1⟩ (some sz)
        else auto_try_formats env img q rest best bs
      else auto_try_formats env img q rest best bs := by
  conv_lhs => unfold auto_try_formats
  rw [henc]

theorem auto_try_shape (env : VipsEnv) (img : Image) (q : Nat) :
    ∀ (fmts : List ImageFormat) (best : CompressedImageResult) (bs : Option Nat),
      (best = ⟨none, 0, -1⟩ ∧ bs = none ∨
       ∃ n, 0 < n ∧ best = ⟨some n, n, 1⟩ ∧ bs = some n) →
      (auto_try_formats env img q fmts best bs = ⟨none, 0, -1⟩ ∨
       ∃ n, 0 < n ∧ auto_try_formats env img q fmts best bs = ⟨some n, n, 1⟩) := by
  intro fmts
  induction fmts with
  | nil =>
    intro best bs hinv
    rcases hinv with ⟨hb, -⟩ | ⟨n, hn, hb, -⟩
    · exact Or.inl (by rw [auto_try_nil, hb])
    · exact Or.inr ⟨n, hn, by rw [auto_try_nil, hb]⟩
  | cons fmt rest ih =>
    intro best bs hinv
    cases henc : format_encode_guarded env img q fmt with
    | none =>
      rw [auto_try_cons_none env img q fmt rest best bs henc]
      exact ih best bs hinv
    | some sz =>
      rw [auto_try_cons_some env img q fmt rest best bs sz henc]
      by_cases h0 : 0 < sz
      · rw [if_pos h0]
        by_cases hsm : smallerThan sz bs = true
        · rw [if_pos hsm]
          exact ih _ _ (Or.inr ⟨sz, h0, rfl, rfl⟩)
        · rw [if_neg hsm]
          exact ih best bs hinv
      · rw [if_neg h0]
        exact ih best bs hinv

theorem auto_try_min (env : VipsEnv) (img : Image) (q : Nat) :
    ∀ (fmts : List ImageFormat) (best : CompressedImageResult) (bs : Option Nat),
      (best = ⟨none, 0, -1⟩ ∧ bs = none ∨
       ∃ n, 0 < n ∧ best = ⟨some n, n, 1⟩ ∧ bs = some n) →
      ((∀ n, bs = some n →
          (auto_try_formats env img q fmts best bs).success = 1 ∧
          (auto_try_formats env img q fmts best bs).length ≤ n) ∧
       (∀ fmt ∈ fmts, ∀ sz, format_encode_guarded env img q fmt = some sz → 0 < sz →
          (auto_try_formats env img q fmts best bs).success = 1 ∧
          (auto_try_formats env img q fmts best bs).length ≤ sz)) := by
  intro fmts
  induction fmts with
  | nil =>
    intro best bs hinv
    constructor
    · intro n hbs
      rcases hinv with ⟨hb, hbs'⟩ | ⟨m, hm, hb, hbs'⟩
      · rw [hbs'] at hbs; cases hbs
      · rw [hbs'] at hbs
        have hmn : m = n := Option.some.inj hbs
        subst hmn
        rw [auto_try_nil, hb]
        exact ⟨rfl, le_refl m⟩
    · intro fmt hf
      simp at hf
  | cons fmt rest ih =>
    intro best bs hinv
    cases henc : format_encode_guarded env img q fmt with
    | none =>
      rw [auto_try_cons_none env img q fmt rest best bs henc]
      refine ⟨(ih best bs hinv).1, ?_⟩
      intro f hf sz hsz h0
      rcases List.mem_cons.mp hf with rfl | hf'
      · rw [henc] at hsz; cases hsz
      · exact (ih best bs hinv).2 f hf' sz hsz h0
    | some sz =>
      rw [auto_try_cons_some env img q fmt rest best bs sz henc]
      by_cases h0 : 0 < sz
      · rw [if_pos h0]
        by_cases hsm : smallerThan sz bs = true
        · rw [if_pos hsm]
          have IH := ih ⟨some sz, sz, 1⟩ (some sz) (Or.inr ⟨sz, h0, rfl, rfl⟩)
          constructor
          · intro n hbs
            have hlt : sz < n := by
              rw [hbs] at hsm
              unfold smallerThan at hsm
              exact of_decide_eq_true hsm
            obtain ⟨hsuc, hlen⟩ := IH.1 sz rfl
            exact ⟨hsuc, le_trans hlen (le_of_lt hlt)⟩
          · intro f hf sz' hsz' h0'
            rcases List.mem_cons.mp hf with rfl | hf'
            · rw [henc] at hsz'
              have h1 : sz = sz' := Option.some.inj hsz'
              subst h1
              exact IH.1 sz rfl
            · exact IH.2 f hf' sz' hsz' h0'
        · rw [if_neg hsm]
          have IH := ih best bs hinv
          have hex : ∃ n, bs = some n ∧ n ≤ sz := by
            cases hbs : bs with
            | none =>
              exfalso
              apply hsm
              rw [hbs]
              rfl
            | some n =>
              refine ⟨n, rfl, ?_⟩
              rw [hbs] at hsm
              unfold smallerThan at hsm
              have h' : ¬ sz < n := by
                intro hlt
                exact hsm (decide_eq_true hlt)
              omega
          obtain ⟨n, hbs, hnsz⟩ := hex
          constructor
          · intro m hm
            exact IH.1 m hm
          · intro f hf sz' hsz' h0'
            rcases List.mem_cons.mp hf with rfl | hf'
            · rw [henc] at hsz'
              have h1 : sz = sz' := Option.some.inj hsz'
              subst h1
              obtain ⟨hsuc, hlen⟩ := IH.1 n hbs
              exact ⟨hsuc, le_trans hlen hnsz⟩
            · exact IH.2 f hf' sz' hsz' h0'
      · rw [if_neg h0]
        refine ⟨(ih best bs hinv).1, ?_⟩
        intro f hf sz' hsz' h0'
        rcases List.mem_cons.mp hf with rfl | hf'
        · rw [henc] at hsz'
          have h1 : sz = sz' := Option.some.inj hsz'
          subst h1
          exact absurd h0' h0
        · exact (ih best bs hinv).2 f hf' sz' hsz' h0'

theorem auto_try_all_fail (env : VipsEnv) (img : Image) (q : Nat) :
    ∀ (fmts : List ImageFormat) (best : CompressedImageResult) (bs : Option Nat),
      (∀ fmt ∈ fmts, ∀ sz, format_encode_guarded env img q fmt = some sz → sz = 0) →
      auto_try_formats env img q fmts best bs = best := by
  intro fmts
  induction fmts with
  | nil => intro best bs _; rfl
  | cons fmt rest ih =>
    intro best bs hall
    cases henc : format_encode_guarded env img q fmt with
    | none =>
      rw [auto_try_cons_none env img q fmt rest best bs henc]
      exact ih best bs (fun f hf => hall f (List.mem_cons_of_mem _ hf))
    | some sz =>
      have hsz0 : sz = 0 := hall fmt (List.mem_cons_self _ _) sz henc
      rw [auto_try_cons_some env img q fmt rest best bs sz henc, if_neg (by omega)]
      exact ih best bs (fun f hf => hall f (List.mem_cons_of_mem _ hf))

/-- C5: the Best-of-Formats Selector tries the fixed order WEBP, JPEG,
JXL, HEIF, JP2K, TIFF, PNG, GIF at one quality; a failing candidate is
merely skipped (any one successful candidate forces a successful
result), the result's length is at most the length of every successful
candidate encode, if every candidate fails the loop leaves the failure
result in place, and auto_compress_image returns either the failure
result or exactly the loop's best over its processed image. -/
theorem auto_smallest_selector :
    autoFormats = [ImageFormat.WEBP, ImageFormat.JPEG, ImageFormat.JXL, ImageFormat.HEIF,
       ImageFormat.JP2K, ImageFormat.TIFF, ImageFormat.PNG, ImageFormat.GIF] ∧
    (∀ (env : VipsEnv) (img : Image) (q : Nat), ∀ fmt ∈ autoFormats, ∀ sz,
       format_encode_guarded env img q fmt = some sz → 0 < sz →
       (auto_try_formats env img q autoFormats ⟨none, 0, -1⟩ none).success = 1 ∧
       (auto_try_formats env img q autoFormats ⟨none, 0, -1⟩ none).length ≤ sz) ∧
    (∀ (env : VipsEnv) (img : Image) (q : Nat),
       (∀ fmt ∈ autoFormats, ∀ sz, format_encode_guarded env img q fmt = some sz → sz = 0) →
       auto_try_formats env img q autoFormats ⟨none, 0, -1⟩ none = ⟨none, 0, -1⟩) ∧
    (∀ (env : VipsEnv) (path : String) (q : Nat),
       auto_compress env path q = ⟨none, 0, -1⟩ ∨
       ∃ img, auto_compress env path q =
         auto_try_formats env img q autoFormats ⟨none, 0, -1⟩ none) := by
  refine ⟨rfl, ?_, ?_, ?_⟩
  · intro env img q fmt hf sz hsz h0
    exact (auto_try_min env img q autoFormats _ _ (Or.inl ⟨rfl, rfl⟩)).2 fmt hf sz hsz h0
  · intro env img q hall
    exact auto_try_all_fail env img q autoFormats _ _ hall
  · intro env path q
    unfold auto_compress
    repeat' split
    all_goals first
      | exact Or.inl rfl
      | (dsimp only
         split
         · exact Or.inr ⟨_, rfl⟩
         · exact Or.inl rfl)

/-- C5 witness: in envC5 the WEBP candidate succeeds with 120 bytes, so
the loop result is a success of length at most 120. -/
theorem auto_smallest_selector_witness :
    (auto_try_formats envC5 imgSmall 80 autoFormats ⟨none, 0, -1⟩ none).success = 1 ∧
    (auto_try_formats envC5 imgSmall 80 autoFormats ⟨none, 0, -1⟩ none).length ≤ 120 :=
  auto_smallest_selector.2.1 envC5 imgSmall 80 ImageFormat.WEBP (by decide) 120
    (by decide) (by decide)

theorem filter_shape (r : CompressedImageResult)
    (h : r = ⟨none, 0, -1⟩ ∨ ∃ n, 0 < n ∧ r = ⟨some n, n, 1⟩) :
    (if r.success = 1 then r else ⟨none, 0, -1⟩) = ⟨none, 0, -1⟩ ∨
    ∃ n, 0 < n ∧ (if r.success = 1 then r else ⟨none, 0, -1⟩) = ⟨some n, n, 1⟩ := by
  rcases h with h | ⟨n, hn, h⟩
  · subst h
    exact Or.inl (if_neg (by decide))
  · subst h
    exact Or.inr ⟨n, hn, if_pos rfl⟩

theorem compress_image_shape (env : VipsEnv) (path : String) (q : Nat) :
    compress_image env path q = ⟨none, 0, -1⟩ ∨
    ∃ sz, 0 < sz ∧ compress_image env path q = ⟨some sz, sz, 1⟩ := by
  unfold compress_image
  repeat' split
  all_goals first
    | exact Or.inl rfl
    | (refine Or.inr ⟨_, ?_, rfl⟩; assumption)

theorem compress_image_with_format_shape (env : VipsEnv) (path : String) (q : Nat)
    (fmt : ImageFormat) :
    compress_image_with_format env path q fmt = ⟨none, 0, -1⟩ ∨
    ∃ sz, 0 < sz ∧ compress_image_with_format env path q fmt = ⟨some sz, sz, 1⟩ := by
  unfold compress_image_with_format
  dsimp only
  repeat' split
  all_goals first
    | exact Or.inl rfl
    | (refine Or.inr ⟨_, ?_, rfl⟩; assumption)

theorem compress_image_with_size_and_format_shape (env : VipsEnv) (path : String)
    (q tw th : Nat) (fmt : ImageFormat) :
    compress_image_with_size_and_format env path q tw th fmt = ⟨none, 0, -1⟩ ∨
    ∃ sz, 0 < sz ∧
      compress_image_with_size_and_format env path q tw th fmt = ⟨some sz, sz, 1⟩ := by
  unfold compress_image_with_size_and_format
  dsimp only
  repeat' split
  all_goals first
    | exact Or.inl rfl
    | (refine Or.inr ⟨_, ?_, rfl⟩; assumption)

theorem fast_webp_compress_shape (env : VipsEnv) (path : String) (q : Nat) :
    fast_webp_compress env path q = ⟨none, 0, -1⟩ ∨
    ∃ sz, 0 < sz ∧ fast_webp_compress env path q = ⟨some sz, sz, 1⟩ := by
  unfold fast_webp_compress
  repeat' split
  all_goals first
    | exact Or.inl rfl
    | (refine Or.inr ⟨_, ?_, rfl⟩; assumption)

theorem auto_compress_shape (env : VipsEnv) (path : String) (q : Nat) :
    auto_compress env path q = ⟨none, 0, -1⟩ ∨
    ∃ sz, 0 < sz ∧ auto_compress env path q = ⟨some sz, sz, 1⟩ := by
  unfold auto_compress
  repeat' split
  all_goals try exact Or.inl rfl
  all_goals
    (dsimp only
     exact filter_shape _ (auto_try_shape _ _ _ autoFormats _ _ (Or.inl ⟨rfl, rfl⟩)))

/-- C8: whenever one of the compression entry points returns a result
whose success flag is not 1, the returned data pointer is NULL (none)
and the length is 0 — no failed call yields a dangling or partially
filled buffer. -/
theorem failure_yields_empty (env : VipsEnv) (path : String) (q tw th : Nat)
    (fmt : ImageFormat) :
    ((compress_image env path q).success ≠ 1 →
       (compress_image env path q).data = none ∧
       (compress_image env path q).length = 0) ∧
    ((compress_image_with_format env path q fmt).success ≠ 1 →
       (compress_image_with_format env path q fmt).data = none ∧
       (compress_image_with_format env path q fmt).length = 0) ∧
    ((compress_image_with_size_and_format env path q tw th fmt).success ≠ 1 →
       (compress_image_with_size_and_format env path q tw th fmt).data = none ∧
       (compress_image_with_size_and_format env path q tw th fmt).length = 0) ∧
    ((auto_compress env path q).success ≠ 1 →
       (auto_compress env path q).data = none ∧
       (auto_compress env path q).length = 0) ∧
    ((fast_webp_compress env path q).success ≠ 1 →
       (fast_webp_compress env path q).data = none ∧
       (fast_webp_compress env path q).length = 0) := by
  refine ⟨?_, ?_, ?_, ?_, ?_⟩
  · intro h
    rcases compress_image_shape env path q with he | ⟨sz, hsz, he⟩
    · rw [he]; exact ⟨rfl, rfl⟩
    · rw [he] at h; exact absurd rfl h
  · intro h
    rcases compress_image_with_format_shape env path q fmt with he | ⟨sz, hsz, he⟩
    · rw [he]; exact ⟨rfl, rfl⟩
    · rw [he] at h; exact absurd rfl h
  · intro h
    rcases compress_image_with_size_and_format_shape env path q tw th fmt with he | ⟨sz, hsz, he⟩
    · rw [he]; exact ⟨rfl, rfl⟩
    · rw [he] at h; exact absurd rfl h
  · intro h
    rcases auto_compress_shape env path q with he | ⟨sz, hsz, he⟩
    · rw [he]; exact ⟨rfl, rfl⟩
    · rw [he] at h; exact absurd rfl h
  · intro h
    rcases fast_webp_compress_shape env path q with he | ⟨sz, hsz, he⟩
    · rw [he]; exact ⟨rfl, rfl⟩
    · rw [he] at h; exact absurd rfl h

/-- C8 witness: in the all-failing environment every entry point reports
failure with an empty buffer. -/
theorem failure_yields_empty_witness :
    ((compress_image envFail "x.jpg" 80).data = none ∧
     (compress_image envFail "x.jpg" 80).length = 0) ∧
    ((compress_image_with_format envFail "x.jpg" 80 ImageFormat.PNG).data = none ∧
     (compress_image_with_format envFail "x.jpg" 80 ImageFormat.PNG).length = 0) ∧
    ((compress_image_with_size_and_format envFail "x.jpg" 80 100 100 ImageFormat.PNG).data = none ∧
     (compress_image_with_size_and_format envFail "x.jpg" 80 100 100 ImageFormat.PNG).length = 0) ∧
    ((auto_compress envFail "x.jpg" 80).data = none ∧
     (auto_compress envFail "x.jpg" 80).length = 0) ∧
    ((fast_webp_compress envFail "x.jpg" 80).data = none ∧
     (fast_webp_compress envFail "x.jpg" 80).length = 0) :=
  ⟨(failure_yields_empty envFail "x.jpg" 80 100 100 ImageFormat.PNG).1 (by decide),
   (failure_yields_empty envFail "x.jpg" 80 100 100 ImageFormat.PNG).2.1 (by decide),
   (failure_yields_empty envFail "x.jpg" 80 100 100 ImageFormat.PNG).2.2.1 (by decide),
   (failure_yields_empty envFail "x.jpg" 80 100 100 ImageFormat.PNG).2.2.2.1 (by decide),
   (failure_yields_empty envFail "x.jpg" 80 100 100 ImageFormat.PNG).2.2.2.2 (by decide)⟩

/-- C9 (amended): when the final image has fewer than 3 bands, the GIF
encode is skipped (failure) by compress_image_with_size_and_format and by
the guarded format switch used by auto_compress_image; but
compress_image_with_format has no such guard and attempts the GIF encode
regardless of the band count — when the encoder succeeds, the call
succeeds. -/
theorem gif_band_guard (env : VipsEnv) (path : String) (q fsz : Nat) (img : Image)
    (hpath : ¬ path.length = 0) (hq1 : 1 ≤ q) (hq2 : q ≤ 100)
    (hfs : env.fileSize = some fsz) (hload : env.load = some img)
    (hw : img.width ≠ 0) (hh : img.height ≠ 0) (hb : img.bands ≠ 0)
    (hb3 : img.bands < 3) (hw6 : img.width ≤ 6000) (hh6 : img.height ≤ 6000) :
    compress_image_with_size_and_format env path q 0 0 ImageFormat.GIF = ⟨none, 0, -1⟩ ∧
    format_encode_guarded env img q ImageFormat.GIF = none ∧
    (∀ sz, env.gifSave img = some sz → 0 < sz →
       compress_image_with_format env path q ImageFormat.GIF = ⟨some sz, sz, 1⟩) := by
  have hqc : ¬ (q < 1 ∨ 100 < q) := by omega
  have hdims : ¬ (img.width = 0 ∨ img.height = 0 ∨ img.bands = 0) := by
    rintro (h | h | h)
    exacts [hw h, hh h, hb h]
  have hplan : size_plan_cwsf img.width img.height 0 0 q =
      ⟨false, 1, img.width, img.height, q⟩ := by
    unfold size_plan_cwsf
    rw [if_neg (by rintro ⟨h0, -⟩; omega), if_neg (by omega), if_neg (by omega),
        if_neg (by rintro (h1 | h1) <;> omega)]
  have hguard : format_encode_guarded env img q ImageFormat.GIF = none := by
    unfold format_encode_guarded
    rw [if_pos ⟨rfl, hb3⟩]
  have hdrp : (default_resize_plan img.width img.height).needs_resize = false := by
    unfold default_resize_plan
    rw [if_neg (by rintro (h1 | h1) <;> omega)]
  refine ⟨?_, hguard, ?_⟩
  · simp only [compress_image_with_size_and_format, hpath, hqc, hfs, hload, hdims, hplan,
      hguard, if_false, if_true, ite_false, ite_true]
    simp only [show (false = true) = False from by simp, if_false,
      show (ImageFormat.GIF = ImageFormat.AUTO) = False from by simp, if_true,
      show (ImageFormat.GIF = ImageFormat.GIF) = True from by simp]
    rw [hguard]
  · intro sz hsz h0
    simp only [compress_image_with_format, hpath, hqc, hfs, hload, hdims, hdrp,
      if_false, if_true, ite_false, ite_true]
    simp [format_encode, hsz, h0]

/-- C9 counterexample: with a successfully loading 1-band image and a
working GIF encoder, compress_image_with_format with format GIF returns
a successful 123-byte result — it attempts the encode instead of
skipping it and returning failure as the claim requires for every
single-pass entry point with a format parameter. -/
theorem gif_band_guard_cex :
    compress_image_with_format envC9 "a.gif" 80 ImageFormat.GIF = ⟨some 123, 123, 1⟩ ∧
    envC9.load = some imgGray ∧ imgGray.bands < 3 ∧
    (⟨some 123, 123, 1⟩ : CompressedImageResult).success = 1 := by
  refine ⟨by decide, rfl, by decide, rfl⟩

/-- C9 witness: the amended behaviour on the concrete 1-band image. -/
theorem gif_band_guard_witness :
    compress_image_with_size_and_format envC9 "a.gif" 80 0 0 ImageFormat.GIF = ⟨none, 0, -1⟩ ∧
    format_encode_guarded envC9 imgGray 80 ImageFormat.GIF = none ∧
    (∀ sz, envC9.gifSave imgGray = some sz → 0 < sz →
       compress_image_with_format envC9 "a.gif" 80 ImageFormat.GIF = ⟨some sz, sz, 1⟩) :=
  gif_band_guard envC9 "a.gif" 80 1000 imgGray (by decide) (by decide) (by decide) rfl rfl
    (by decide) (by decide) (by decide) (by decide) (by decide) (by decide)

/-- C10: fast_webp_compress resizes only when max(width, height) exceeds
8000 — below that threshold its result does not depend on the resize
oracle at all and the original-size image flows to the encoder — and
when it does resize it calls the resize capability with scale
8000/max(width, height) and the LINEAR (not Lanczos-3) kernel; an image
whose larger dimension lies in (6000, 8000] is therefore encoded at its
original size here although the other entry points' 6000-cap rule would
resize it. -/
theorem fast_webp_threshold (env : VipsEnv) (path : String) (q : Nat) (img : Image)
    (hpath : ¬ path.length = 0) (hq1 : 1 ≤ q) (hq2 : q ≤ 100)
    (hload : env.load = some img)
    (hw : img.width ≠ 0) (hh : img.height ≠ 0) (hb : img.bands ≠ 0) :
    (max img.width img.height ≤ 8000 →
      (∀ r', fast_webp_compress { env with resize := r' } path q =
         fast_webp_compress env path q) ∧
      (∀ img2 sz, env.toSRGB img = some img2 → env.webpSaveFast img2 q = some sz → 0 < sz →
         fast_webp_compress env path q = ⟨some sz, sz, 1⟩)) ∧
    (8000 < max img.width img.height →
      (env.resize img ((8000 : ℚ) / (max img.width img.height : Nat)) Kernel.linear = none →
         fast_webp_compress env path q = ⟨none, 0, -1⟩) ∧
      (∀ img1 img2 sz,
         env.resize img ((8000 : ℚ) / (max img.width img.height : Nat)) Kernel.linear = some img1 →
         env.toSRGB img1 = some img2 → env.webpSaveFast img2 q = some sz → 0 < sz →
         fast_webp_compress env path q = ⟨some sz, sz, 1⟩)) ∧
    (6000 < max img.width img.height → max img.width img.height ≤ 8000 →
      (default_resize_plan img.width img.height).needs_resize = true) := by
  have hqc : ¬ (q < 1 ∨ 100 < q) := by omega
  have hdims : ¬ (img.width = 0 ∨ img.height = 0 ∨ img.bands = 0) := by
    rintro (h | h | h)
    exacts [hw h, hh h, hb h]
  have hscale : (if img.height < img.width then (8000 : ℚ) / img.width
      else (8000 : ℚ) / img.height) = (8000 : ℚ) / (max img.width img.height : Nat) := by
    by_cases hc : img.height < img.width
    · rw [if_pos hc, max_eq_left (le_of_lt hc)]
    · rw [if_neg hc, max_eq_right (le_of_not_lt hc)]
  refine ⟨?_, ?_, ?_⟩
  · intro hle
    have hcond : ¬ (8000 < img.width ∨ 8000 < img.height) := by
      have h1 : img.width ≤ 8000 := le_trans (le_max_left _ _) hle
      have h2 : img.height ≤ 8000 := le_trans (le_max_right _ _) hle
      omega
    constructor
    · intro r'
      simp only [fast_webp_compress, hpath, hqc, hload, hdims, hcond,
        if_false, if_true, ite_false, ite_true]
    · intro img2 sz h2 h3 h0
      simp only [fast_webp_compress, hpath, hqc, hload, hdims, hcond,
        if_false, if_true, ite_false, ite_true]
      simp [h2, h3, h0]
  · intro hgt
    have hcond : 8000 < img.width ∨ 8000 < img.height := lt_max_iff.mp hgt
    constructor
    · intro hres
      rw [Nat.cast_max] at hres
      simp only [fast_webp_compress, hpath, hqc, hload, hdims, hcond,
        if_false, if_true, ite_false, ite_true]
      simp [hscale, hres]
    · intro img1 img2 sz hres h2 h3 h0
      rw [Nat.cast_max] at hres
      simp only [fast_webp_compress, hpath, hqc, hload, hdims, hcond,
        if_false, if_true, ite_false, ite_true]
      simp [hscale, hres, h2, h3, h0]
  · intro hgt _
    have hcond : 6000 < img.width ∨ 6000 < img.height := lt_max_iff.mp hgt
    unfold default_resize_plan
    rw [if_pos hcond]
    by_cases hc : img.height < img.width
    · rw [if_pos hc]
    · rw [if_neg hc]

/-- C10 witness: a 7000x5000 image in an environment whose resize oracle
always fails is still encoded successfully (so resize was never called),
while the 6000-cap rule of the other entry points would resize it. -/
theorem fast_webp_threshold_witness :
    fast_webp_compress envC10 "p.jpg" 80 = ⟨some 55, 55, 1⟩ ∧
    (default_resize_plan imgMid.width imgMid.height).needs_resize = true := by
  have h := fast_webp_threshold envC10 "p.jpg" 80 imgMid (by decide) (by decide) (by decide)
    rfl (by decide) (by decide) (by decide)
  exact ⟨(h.1 (by decide)).2 imgMid 55 rfl rfl (by decide), h.2.2 (by decide) (by decide)⟩
